import Mathlib

/-!
Verification of the MARBLER CustomizedWarehouse environment
(`robotarium_gym/scenarios/CustomizedEnv/customized_warehouse.py`).

The per-step goal generation, obstacle collision checking, safe-position
search, spawn placement, zone/reward state machine and the step
orchestration are embedded as pure Lean functions over an arbitrary linear
ordered field `α` (the Python code computes with machine floats; the
external numeric primitives cos, sin, sqrt and the constant pi are taken
as explicit parameters, as the design document treats the vector-math
primitives as external collaborators).  The random number generator is
modelled as an injected stream of draws, and the external motion executor
as an input record carrying the poses, message and distance it reports.
-/

namespace Warehouse

/-- Pose of one agent: the column `[x, y, theta]` of the pose matrix. -/
structure Pose (α : Type) where
  x : α
  y : α
  theta : α
deriving DecidableEq, Repr

/-- Axis-aligned rectangular obstacle `[x, y, width, height]`. -/
structure Obstacle (α : Type) where
  x : α
  y : α
  w : α
  h : α
deriving DecidableEq, Repr

/-- Goal zone `[x, y, width, height, kind, color]`; `kind` is the string
tag the code compares against `"load"` / `"unload"`. -/
structure Zone (α : Type) where
  x : α
  y : α
  w : α
  h : α
  kind : String
  color : String
deriving DecidableEq, Repr

/-- The configuration fields of `args` that the embedded code reads. -/
structure WArgs (α : Type) where
  LEFT : α
  RIGHT : α
  UP : α
  DOWN : α
  step_dist : α
  start_dist : α
  load_reward : α
  unload_reward : α
  goal_width : α
  max_episode_steps : ℕ
  n_agents : ℕ
  num_neighbors : ℕ
  save_gif : Bool
  goal_zones : List (Zone α)
deriving DecidableEq, Repr

variable {α : Type} [LinearOrderedField α]

/-- The fixed robot collision radius (`robot_radius = 0.1` in both
`Agent._check_obstacle_collision` and `CustomizedWarehouse._is_position_safe`). -/
def robot_radius : α := 1 / 10

/-- `Agent._check_obstacle_collision`: a position collides when some obstacle's
rectangle, inflated by the robot radius, contains its `(x, y)` (both bounds
inclusive). -/
def check_obstacle_collision (position : Pose α) (obstacles : List (Obstacle α)) : Bool :=
  obstacles.any fun o =>
    decide (o.x - robot_radius ≤ position.x ∧ position.x ≤ o.x + o.w + robot_radius ∧
            o.y - robot_radius ≤ position.y ∧ position.y ≤ o.y + o.h + robot_radius)

/-- `CustomizedWarehouse._is_position_safe`: the same inflated-rectangle scan,
returning `false` on a hit and `true` when no obstacle contains the point. -/
def is_position_safe (position : Pose α) (obstacles : List (Obstacle α)) : Bool :=
  obstacles.all fun o =>
    !(decide (o.x - robot_radius ≤ position.x ∧ position.x ≤ o.x + o.w + robot_radius ∧
              o.y - robot_radius ≤ position.y ∧ position.y ≤ o.y + o.h + robot_radius))

/-- The radius schedule of `Agent._find_safe_position`: `[0.05, 0.1, 0.15, 0.2]`. -/
def radii_list : List α := [5 / 100, 1 / 10, 15 / 100, 2 / 10]

/-- The angle schedule of `Agent._find_safe_position`: `np.linspace(0, 2*np.pi, 8)`,
that is, 8 samples over the closed interval `[0, 2*pi]` with spacing `2*pi/7`
(endpoint included).  `piv` stands for the numeric constant `np.pi`. -/
def linspace_0_2pi (piv : α) : List α :=
  (List.range 8).map fun k => (k : α) * (2 * piv) / 7

/-- Inner loop of `Agent._find_safe_position`: scan the angle list at one
radius, returning the first probe that is inside the arena bounds and not
blocked.  `cosf`/`sinf` stand for the numeric primitives `np.cos`/`np.sin`. -/
def try_angles (cosf sinf : α → α) (goal_pose : Pose α) (obstacles : List (Obstacle α))
    (args : WArgs α) (radius : α) : List α → Option (Pose α)
  | [] => none
  | angle :: rest =>
    let test_x := goal_pose.x + radius * cosf angle
    let test_y := goal_pose.y + radius * sinf angle
    if args.LEFT ≤ test_x ∧ test_x ≤ args.RIGHT ∧ args.UP ≤ test_y ∧ test_y ≤ args.DOWN then
      if check_obstacle_collision ⟨test_x, test_y, 0⟩ obstacles then
        try_angles cosf sinf goal_pose obstacles args radius rest
      else some ⟨test_x, test_y, 0⟩
    else try_angles cosf sinf goal_pose obstacles args radius rest

/-- Outer loop of `Agent._find_safe_position`: ascend through the radius list,
trying all angles at each radius. -/
def try_radii (cosf sinf : α → α) (piv : α) (goal_pose : Pose α)
    (obstacles : List (Obstacle α)) (args : WArgs α) : List α → Option (Pose α)
  | [] => none
  | radius :: rest =>
    match try_angles cosf sinf goal_pose obstacles args radius (linspace_0_2pi piv) with
    | some p => some p
    | none => try_radii cosf sinf piv goal_pose obstacles args rest

/-- `Agent._find_safe_position`: probe a ring of candidates around the blocked
goal and return the first safe one, or `none` after all probes fail.  The
`original_pose` argument is accepted (as in the source) but never read. -/
def find_safe_position (cosf sinf : α → α) (piv : α) (_original_pose goal_pose : Pose α)
    (obstacles : List (Obstacle α)) (args : WArgs α) : Option (Pose α) :=
  try_radii cosf sinf piv goal_pose obstacles args radii_list

/-- The flattened probe schedule, radius-major: all `(radius, angle)` pairs in
the order the nested loops of `Agent._find_safe_position` visit them. -/
def probe_pairs (piv : α) : List (α × α) :=
  radii_list.flatMap fun radius => (linspace_0_2pi piv).map fun angle => (radius, angle)

/-- One probe of the safe-position search as the specification describes it:
the offset point at `(radius, angle)` from the candidate goal, accepted when it
lies within arena bounds and is not blocked. -/
def probe_attempt (cosf sinf : α → α) (goal_pose : Pose α) (obstacles : List (Obstacle α))
    (args : WArgs α) (ra : α × α) : Option (Pose α) :=
  let test_x := goal_pose.x + ra.1 * cosf ra.2
  let test_y := goal_pose.y + ra.1 * sinf ra.2
  if (args.LEFT ≤ test_x ∧ test_x ≤ args.RIGHT ∧ args.UP ≤ test_y ∧ test_y ≤ args.DOWN) ∧
      check_obstacle_collision ⟨test_x, test_y, 0⟩ obstacles = false then
    some ⟨test_x, test_y, 0⟩
  else none

/-- The safe-position search in the specification's phrasing: the first probe
of the fixed radius-major schedule that passes both tests. -/
def probe_first (cosf sinf : α → α) (piv : α) (goal_pose : Pose α)
    (obstacles : List (Obstacle α)) (args : WArgs α) : Option (Pose α) :=
  (probe_pairs piv).findSome? (probe_attempt cosf sinf goal_pose obstacles args)

/-- Modelled from the spec: the claim's angle schedule, "8 angles evenly spaced
over a full circle in 45-degree steps starting from angle 0", that is
`[0, pi/4, 2*pi/4, …, 7*pi/4]`.  Defined only to be compared against the
source's `linspace_0_2pi`. -/
def claimed_angles_45 (piv : α) : List α :=
  (List.range 8).map fun k => (k : α) * (piv / 4)

/-- The discrete action vocabulary (`action_id2w` values). -/
inductive WAction
  | left
  | right
  | up
  | down
  | no_action
deriving DecidableEq, Repr

/-- `action_id2w = {0: left, 1: right, 2: up, 3: down, 4: no_action}`. -/
def action_id2w (action : Fin 5) : WAction :=
  if action.val = 0 then .left
  else if action.val = 1 then .right
  else if action.val = 2 then .up
  else if action.val = 3 then .down
  else .no_action

/-- Soft clamp of the x coordinate toward `[LEFT, RIGHT]`, as written inline in
`Agent.generate_goal` (only an out-of-range value is moved). -/
def snap_x (args : WArgs α) (x : α) : α :=
  if x < args.LEFT then args.LEFT else if x > args.RIGHT then args.RIGHT else x

/-- Soft clamp of the y coordinate toward `[UP, DOWN]`. -/
def snap_y (args : WArgs α) (y : α) : α :=
  if y < args.UP then args.UP else if y > args.DOWN then args.DOWN else y

/-- The directional update of `Agent.generate_goal`: one of five rules keyed by
the action word, moving by `step_dist` in the commanded direction (clamped at
the bound) and soft-clamping the orthogonal coordinate. -/
def apply_action_update (args : WArgs α) (p : Pose α) : WAction → Pose α
  | .left => ⟨max (p.x - args.step_dist) args.LEFT, snap_y args p.y, p.theta⟩
  | .right => ⟨min (p.x + args.step_dist) args.RIGHT, snap_y args p.y, p.theta⟩
  | .up => ⟨snap_x args p.x, max (p.y - args.step_dist) args.UP, p.theta⟩
  | .down => ⟨snap_x args p.x, min (p.y + args.step_dist) args.DOWN, p.theta⟩
  | .no_action => ⟨snap_x args p.x, snap_y args p.y, p.theta⟩

/-- `Agent.generate_goal`: apply the directional update, then on collision fall
back to the safe-position search, and failing that to the original pose. -/
def generate_goal (cosf sinf : α → α) (piv : α) (goal_pose : Pose α) (action : Fin 5)
    (args : WArgs α) (obstacles : List (Obstacle α)) : Pose α :=
  let original_pose := goal_pose
  let updated := apply_action_update args goal_pose (action_id2w action)
  if check_obstacle_collision updated obstacles then
    match find_safe_position cosf sinf piv original_pose updated obstacles args with
    | some safe_goal => safe_goal
    | none => original_pose
  else updated

/-- One zone scan of `CustomizedWarehouse.get_rewards`: walk the zone list in
declaration order; on the first zone of the wanted kind whose rectangle
contains `(px, py)` (inclusive bounds, no radius inflation) emit the reward and
the flipped loaded flag and stop; after the list, reward `0` and the loaded
flag unchanged. -/
def scan_zones (kind : String) (reward : α) (flipped orig : Bool) (px py : α) :
    List (Zone α) → α × Bool
  | [] => (0, orig)
  | z :: rest =>
    if z.kind = kind ∧ z.x ≤ px ∧ px ≤ z.x + z.w ∧ z.y ≤ py ∧ py ≤ z.y + z.h then
      (reward, flipped)
    else scan_zones kind reward flipped orig px py rest

/-- The per-agent body of `CustomizedWarehouse.get_rewards`: a loaded agent
scans the unload zones, an unloaded agent the load zones. -/
def agent_zone_step (args : WArgs α) (zones : List (Zone α)) (loaded : Bool) (px py : α) :
    α × Bool :=
  if loaded then scan_zones "unload" args.unload_reward false loaded px py zones
  else scan_zones "load" args.load_reward true loaded px py zones

/-- The built-in default `goal_zones` layout of `CustomizedWarehouse.get_rewards`
(2 load zones, 4 unload zones). -/
def default_goal_zones (args : WArgs α) : List (Zone α) :=
  [⟨-(3 / 2), 2 / 10, args.goal_width, 6 / 10, "load", "red"⟩,
   ⟨-(3 / 2), -(8 / 10), args.goal_width, 6 / 10, "load", "red"⟩,
   ⟨2 / 10, -(9 / 10), 15 / 100, 2 / 10, "unload", "green"⟩,
   ⟨5 / 10, -(9 / 10), 15 / 100, 2 / 10, "unload", "green"⟩,
   ⟨8 / 10, -(9 / 10), 15 / 100, 2 / 10, "unload", "green"⟩,
   ⟨11 / 10, -(9 / 10), 15 / 100, 2 / 10, "unload", "green"⟩]

/-- The zone list `get_rewards` actually scans: the configured `goal_zones`, or
the built-in default when that list is empty. -/
def effective_goal_zones (args : WArgs α) : List (Zone α) :=
  if args.goal_zones.isEmpty then default_goal_zones args else args.goal_zones

/-- `CustomizedWarehouse.get_rewards`: one `(reward, new loaded flag)` pair per
agent, each agent judged independently at its own pose. -/
def get_rewards (args : WArgs α) (poses : List (Pose α)) (loaded : List Bool) :
    List α × List Bool :=
  let zones := effective_goal_zones args
  let results := (poses.zip loaded).map fun pl => agent_zone_step args zones pl.2 pl.1.x pl.1.y
  (results.map Prod.fst, results.map Prod.snd)

/-- The numeric rendering of the loaded flag inside an observation vector. -/
def loaded_num (b : Bool) : α := if b then 1 else 0

/-- The base observation of agent `i`: `[pos_x, pos_y, loaded]`. -/
def base_obs (poses : List (Pose α)) (loaded : List Bool) (i : ℕ) : List α :=
  [(poses.getD i ⟨0, 0, 0⟩).x, (poses.getD i ⟨0, 0, 0⟩).y, loaded_num (loaded.getD i false)]

/-- Neighbor index selection of `CustomizedWarehouse.get_observations`: all
other agents in index order when `num_neighbors ≥ n_agents - 1`, otherwise the
external `get_nearest_neighbors` utility, abstracted as the parameter
`nbr_sel` (its module is outside the embedded core). -/
def nbr_indices (nbr_sel : List (Pose α) → ℕ → ℕ → List ℕ) (args : WArgs α)
    (poses : List (Pose α)) (i : ℕ) : List ℕ :=
  if args.num_neighbors ≥ args.n_agents - 1 then
    (List.range args.n_agents).filter fun j => j ≠ i
  else nbr_sel poses i args.num_neighbors

/-- `CustomizedWarehouse.get_observations`: per agent, its base observation
with the base observations of its neighbors concatenated on the right. -/
def get_observations (nbr_sel : List (Pose α) → ℕ → ℕ → List ℕ) (args : WArgs α)
    (poses : List (Pose α)) (loaded : List Bool) : List (List α) :=
  (List.range args.n_agents).map fun i =>
    (nbr_indices nbr_sel args poses i).foldl
      (fun acc j => acc ++ base_obs poses loaded j) (base_obs poses loaded i)

/-- What the external motion executor (`roboEnv.step`) reports back: the
updated pose matrix it wrote in place, a termination message (empty means
normal), the distance travelled and the rendered frames. -/
structure ExecOut (α : Type) where
  poses : List (Pose α)
  message : String
  dist : α
  frames : List Unit
deriving DecidableEq, Repr

/-- The info payload of one step. -/
structure StepInfo (α : Type) where
  message : Option String
  dist_travelled : α
  frames : Option (List Unit)
deriving DecidableEq, Repr

/-- The `(obs, rewards, terminated, info)` tuple one `step` call returns. -/
structure StepResult (α : Type) where
  obs : List (List α)
  rewards : List α
  terminated : List Bool
  info : StepInfo α
deriving DecidableEq, Repr

/-- The orchestrator state `step` reads and writes: the pose matrix, the
per-agent loaded flags and the episode step counter. -/
structure WState (α : Type) where
  poses : List (Pose α)
  loaded : List Bool
  episode_steps : ℕ
deriving DecidableEq, Repr

/-- `CustomizedWarehouse.step`, with the motion executor's report injected as
`exec`.  Faithful to the source's order: the step counter is incremented, the
executor runs, observations are assembled from the poses it wrote and the
loaded flags as they stood before any reward update, and only then — when the
message is empty — does `get_rewards` run and update the loaded flags; a
non-empty message instead forces reward `-5` and `terminated = true` for every
agent and records the message in the info payload. -/
def stepW (nbr_sel : List (Pose α) → ℕ → ℕ → List ℕ) (args : WArgs α)
    (st : WState α) (exec : ExecOut α) : StepResult α × WState α :=
  let steps := st.episode_steps + 1
  let poses := exec.poses
  let obs := get_observations nbr_sel args poses st.loaded
  let frames : Option (List Unit) := if args.save_gif then some exec.frames else none
  if exec.message = "" then
    let rl := get_rewards args poses st.loaded
    let terminated : Bool := decide (steps > args.max_episode_steps)
    (⟨obs, rl.1, List.replicate args.n_agents terminated, ⟨none, exec.dist, frames⟩⟩,
     ⟨poses, rl.2, steps⟩)
  else
    (⟨obs, List.replicate args.n_agents (-5), List.replicate args.n_agents true,
      ⟨some exec.message, exec.dist, frames⟩⟩,
     ⟨poses, st.loaded, steps⟩)

/-- The pairwise distance `np.linalg.norm(p[:2] - q[:2])`; `sqrtf` stands for
the external square-root primitive. -/
def norm2 (sqrtf : α → α) (p q : Pose α) : α :=
  sqrtf ((p.x - q.x) ^ 2 + (p.y - q.y) ^ 2)

/-- The acceptance test of one sampled spawn position: unobstructed, and not
closer than `start_dist` to any previously accepted position. -/
def accept_spawn (sqrtf : α → α) (args : WArgs α) (obstacles : List (Obstacle α))
    (positions : List (Pose α)) (p : Pose α) : Bool :=
  is_position_safe p obstacles &&
    !(positions.any fun q => decide (norm2 sqrtf p q < args.start_dist))

/-- The sampling loop of `CustomizedWarehouse._generate_safe_spawn_positions`:
while fewer than `n` positions are accepted and attempts remain, draw the next
sample from the injected random stream and accept it when the test passes.
`fuel` is the number of attempts still allowed, `k` the index of the next
draw. -/
def spawn_loop (sqrtf : α → α) (args : WArgs α) (obstacles : List (Obstacle α))
    (stream : ℕ → α × α) (n : ℕ) : ℕ → ℕ → List (Pose α) → List (Pose α)
  | 0, _, acc => acc
  | fuel + 1, k, acc =>
    if acc.length < n then
      let p : Pose α := ⟨(stream k).1, (stream k).2, 0⟩
      spawn_loop sqrtf args obstacles stream n fuel (k + 1)
        (if accept_spawn sqrtf args obstacles acc p then acc ++ [p] else acc)
    else acc

/-- The deterministic corner fallback: position slot `j` receives the arena
corner `j % 4`, inset by `0.3`, in the order left-up, right-up, left-down,
right-down. -/
def corner_position (args : WArgs α) (j : ℕ) : Pose α :=
  if j % 4 = 0 then ⟨args.LEFT + 3 / 10, args.UP + 3 / 10, 0⟩
  else if j % 4 = 1 then ⟨args.RIGHT - 3 / 10, args.UP + 3 / 10, 0⟩
  else if j % 4 = 2 then ⟨args.LEFT + 3 / 10, args.DOWN - 3 / 10, 0⟩
  else ⟨args.RIGHT - 3 / 10, args.DOWN - 3 / 10, 0⟩

/-- The fill loop run after sampling: append corner positions until `n`
positions exist (`fuel = n` always suffices). -/
def corner_fill (args : WArgs α) (n : ℕ) : ℕ → List (Pose α) → List (Pose α)
  | 0, acc => acc
  | fuel + 1, acc =>
    if acc.length < n then
      corner_fill args n fuel (acc ++ [corner_position args acc.length])
    else acc

/-- `max_attempts = 1000`, the sampling budget of spawn generation. -/
def max_attempts : ℕ := 1000

/-- The positions the random-sampling phase of spawn generation accepts. -/
def accepted_spawn (sqrtf : α → α) (args : WArgs α) (obstacles : List (Obstacle α))
    (stream : ℕ → α × α) (n : ℕ) : List (Pose α) :=
  spawn_loop sqrtf args obstacles stream n max_attempts 0 []

/-- `CustomizedWarehouse._generate_safe_spawn_positions`: random sampling for
at most `max_attempts` draws, then the deterministic corner fill. -/
def generate_safe_spawn_positions (sqrtf : α → α) (args : WArgs α)
    (obstacles : List (Obstacle α)) (stream : ℕ → α × α) (n : ℕ) : List (Pose α) :=
  corner_fill args n n (accepted_spawn sqrtf args obstacles stream n)

/-! Concrete rational fixtures used by witnesses and counterexamples.  The
numeric primitives may be instantiated with any functions, since none of the
proved properties depends on analytic facts about cosine, sine or square
root; the constant functions below make the searches fully computable. -/

/-- Fixture cosine: the constant function 1. -/
def cosQ : ℚ → ℚ := fun _ => 1

/-- Fixture sine: the constant function 0. -/
def sinQ : ℚ → ℚ := fun _ => 0

/-- Fixture square root: the identity function. -/
def sqrtQ : ℚ → ℚ := fun x => x

/-- Fixture value for the constant pi. -/
def piQ : ℚ := 22 / 7

/-- Fixture configuration: the default 3 x 2 arena, one agent. -/
def argsQ : WArgs ℚ :=
  ⟨-(3 / 2), 3 / 2, -1, 1, 1 / 10, 3 / 10, 1, 5, 3 / 10, 2, 1, 0, false, []⟩

/-- Fixture neighbor selector (never consulted with one agent). -/
def nbrQ : List (Pose ℚ) → ℕ → ℕ → List ℕ := fun _ _ _ => []

/-- Fixture state: one unloaded agent standing inside default load zone 1. -/
def stQ : WState ℚ := ⟨[⟨-(14 / 10), 3 / 10, 0⟩], [false], 0⟩

/-- Fixture executor report: normal step, agent still in the load zone. -/
def execQ : ExecOut ℚ := ⟨[⟨-(14 / 10), 3 / 10, 0⟩], "", 0, []⟩

/-- Fixture random stream: the constant draw `(0, 0)`. -/
def streamQ : ℕ → ℚ × ℚ := fun _ => (0, 0)

/-- Fixture obstacle covering the whole arena (every probe is blocked). -/
def big_obstacle : Obstacle ℚ := ⟨-100, -100, 200, 200⟩

end Warehouse

namespace Warehouse

variable {α : Type} [LinearOrderedField α]

/-- The collision checker reports a hit exactly when some obstacle's inflated
rectangle contains the point (robot radius `0.1`, all bounds inclusive). -/
lemma check_obstacle_collision_iff (position : Pose α) (obstacles : List (Obstacle α)) :
    check_obstacle_collision position obstacles = true ↔
      ∃ o ∈ obstacles,
        o.x - 1 / 10 ≤ position.x ∧ position.x ≤ o.x + o.w + 1 / 10 ∧
        o.y - 1 / 10 ≤ position.y ∧ position.y ≤ o.y + o.h + 1 / 10 := by
  simp [check_obstacle_collision, robot_radius]

/-- The safety scan of the warehouse class is the boolean negation of the
agent-side collision scan. -/
lemma is_position_safe_eq_not (position : Pose α) (obstacles : List (Obstacle α)) :
    is_position_safe position obstacles = !check_obstacle_collision position obstacles := by
  induction obstacles with
  | nil => rfl
  | cons o rest ih =>
    simp [is_position_safe, check_obstacle_collision] at ih ⊢
    rw [ih]

/-- Claim C6: the collision checker returns true exactly when some obstacle's
radius-inflated rectangle contains the point (inclusive bounds, fixed radius
0.1); in particular a point strictly inside an inflated rectangle is flagged,
and the warehouse-side safety test is its boolean negation.  The checker is a
pure function of its arguments, so it has no side effects. -/
theorem claim_C6_collision_checker (position : Pose α) (obstacles : List (Obstacle α)) :
    (check_obstacle_collision position obstacles = true ↔
      ∃ o ∈ obstacles,
        o.x - 1 / 10 ≤ position.x ∧ position.x ≤ o.x + o.w + 1 / 10 ∧
        o.y - 1 / 10 ≤ position.y ∧ position.y ≤ o.y + o.h + 1 / 10) ∧
    (∀ o ∈ obstacles,
      o.x - 1 / 10 < position.x → position.x < o.x + o.w + 1 / 10 →
      o.y - 1 / 10 < position.y → position.y < o.y + o.h + 1 / 10 →
      check_obstacle_collision position obstacles = true) ∧
    is_position_safe position obstacles = !check_obstacle_collision position obstacles := by
  refine ⟨check_obstacle_collision_iff position obstacles, ?_, is_position_safe_eq_not position obstacles⟩
  intro o ho h1 h2 h3 h4
  exact (check_obstacle_collision_iff position obstacles).2
    ⟨o, ho, le_of_lt h1, le_of_lt h2, le_of_lt h3, le_of_lt h4⟩

/-- One zone scan, characterized: the first matching zone (kind and inclusive
containment) decides the result; if the list holds none, the reward is 0 and
the loaded flag keeps its original value. -/
lemma scan_zones_eq_if (kind : String) (reward : α) (flipped orig : Bool) (px py : α)
    (zones : List (Zone α)) :
    scan_zones kind reward flipped orig px py zones =
      if ∃ z ∈ zones, z.kind = kind ∧ z.x ≤ px ∧ px ≤ z.x + z.w ∧ z.y ≤ py ∧ py ≤ z.y + z.h
      then (reward, flipped) else (0, orig) := by
  induction zones with
  | nil => simp [scan_zones]
  | cons z rest ih =>
    by_cases hz : z.kind = kind ∧ z.x ≤ px ∧ px ≤ z.x + z.w ∧ z.y ≤ py ∧ py ≤ z.y + z.h
    · simp [scan_zones, hz]
    · rw [scan_zones, if_neg hz, ih]
      by_cases hr : ∃ z ∈ rest, z.kind = kind ∧ z.x ≤ px ∧ px ≤ z.x + z.w ∧ z.y ≤ py ∧ py ≤ z.y + z.h
      · rw [if_pos hr, if_pos (by simpa using Or.inr hr)]
      · rw [if_neg hr, if_neg (by simpa using not_or_intro hz hr)]

/-- Claim C3: the zone/reward engine.  Per agent: a loaded agent is judged by
the first unload zone whose rectangle contains its position under inclusive,
non-inflated containment — yielding `unload_reward` and clearing the flag —
and an unloaded agent symmetrically by the load zones with `load_reward`; with
no containing zone the reward is 0 and the flag unchanged.  `get_rewards`
emits exactly one reward scalar per agent and flips each agent's flag at most
once, each agent depending only on its own pose and flag. -/
theorem claim_C3_zone_reward_engine (args : WArgs α) (zones : List (Zone α)) (loaded : Bool)
    (px py : α) (poses : List (Pose α)) (loadedList : List Bool) :
    (agent_zone_step args zones loaded px py =
      if ∃ z ∈ zones, z.kind = (if loaded then "unload" else "load") ∧
          z.x ≤ px ∧ px ≤ z.x + z.w ∧ z.y ≤ py ∧ py ≤ z.y + z.h
      then ((if loaded then args.unload_reward else args.load_reward), !loaded)
      else (0, loaded)) ∧
    (get_rewards args poses loadedList).1.length = min poses.length loadedList.length ∧
    (get_rewards args poses loadedList).1 = (poses.zip loadedList).map
      (fun pl => (agent_zone_step args (effective_goal_zones args) pl.2 pl.1.x pl.1.y).1) ∧
    (get_rewards args poses loadedList).2 = (poses.zip loadedList).map
      (fun pl => (agent_zone_step args (effective_goal_zones args) pl.2 pl.1.x pl.1.y).2) := by
  refine ⟨?_, ?_, ?_, ?_⟩
  · cases loaded with
    | false => simp [agent_zone_step, scan_zones_eq_if]
    | true => simp [agent_zone_step, scan_zones_eq_if]
  · simp [get_rewards]
  · simp [get_rewards]
  · simp [get_rewards]

/-- The inner angle loop visits the angle list in order and returns the first
accepted probe at the given radius. -/
lemma try_angles_eq_findSome (cosf sinf : α → α) (goal_pose : Pose α)
    (obstacles : List (Obstacle α)) (args : WArgs α) (radius : α) (angles : List α) :
    try_angles cosf sinf goal_pose obstacles args radius angles =
      (angles.map fun angle => (radius, angle)).findSome?
        (probe_attempt cosf sinf goal_pose obstacles args) := by
  induction angles with
  | nil => rfl
  | cons a rest ih =>
    simp only [try_angles, probe_attempt, List.map_cons, List.findSome?_cons]
    by_cases hb : args.LEFT ≤ goal_pose.x + radius * cosf a ∧
        goal_pose.x + radius * cosf a ≤ args.RIGHT ∧
        args.UP ≤ goal_pose.y + radius * sinf a ∧ goal_pose.y + radius * sinf a ≤ args.DOWN
    · by_cases hc : check_obstacle_collision
          ⟨goal_pose.x + radius * cosf a, goal_pose.y + radius * sinf a, 0⟩ obstacles
      · simp [hb, hc, ih]
      · simp [hb, hc]
    · simp [hb, ih]

/-- The radius loop concatenates the per-radius probe sequences in radius
order, so the whole search is the first accepted probe of the flattened
radius-major schedule. -/
lemma try_radii_eq_findSome (cosf sinf : α → α) (piv : α) (goal_pose : Pose α)
    (obstacles : List (Obstacle α)) (args : WArgs α) (radii : List α) :
    try_radii cosf sinf piv goal_pose obstacles args radii =
      (radii.flatMap fun radius => (linspace_0_2pi piv).map fun angle => (radius, angle)).findSome?
        (probe_attempt cosf sinf goal_pose obstacles args) := by
  induction radii with
  | nil => rfl
  | cons r rest ih =>
    rw [List.flatMap_cons, List.findSome?_append, try_radii, try_angles_eq_findSome, ih]
    cases (List.map (fun angle => (r, angle)) (linspace_0_2pi piv)).findSome?
        (probe_attempt cosf sinf goal_pose obstacles args) with
    | none => simp [Option.or]
    | some p => simp [Option.or]

/-- Claim C1 (amended): the safe-position search equals the first accepted
probe of the fixed radius-major schedule — 4 increasing radii
`[0.05, 0.1, 0.15, 0.2]`, each crossed with the 8 angles of
`linspace(0, 2*pi, 8)` in ascending order — accepting a probe when it lies
within arena bounds and is not blocked, and yielding `none` when all 32 probes
fail. -/
theorem claim_C1_safe_search_schedule (cosf sinf : α → α) (piv : α)
    (original_pose goal_pose : Pose α) (obstacles : List (Obstacle α)) (args : WArgs α) :
    find_safe_position cosf sinf piv original_pose goal_pose obstacles args =
      probe_first cosf sinf piv goal_pose obstacles args ∧
    (probe_pairs (α := α) piv).length = 32 ∧
    radii_list (α := α) = [5 / 100, 1 / 10, 15 / 100, 2 / 10] := by
  refine ⟨?_, rfl, rfl⟩
  rw [find_safe_position, probe_first, probe_pairs, try_radii_eq_findSome]

/-- Counterexample to claim C1 as stated: the probed angles are not 45-degree
steps.  The source's schedule is `np.linspace(0, 2*np.pi, 8)`, whose spacing
is `2*pi/7`; at the real value of pi it differs from the claimed schedule
`[0, pi/4, ..., 7*pi/4]` already in its second element. -/
theorem claim_C1_counterexample :
    linspace_0_2pi (α := ℝ) Real.pi ≠ claimed_angles_45 Real.pi := by
  intro h
  have h8 : List.range 8 = [0, 1, 2, 3, 4, 5, 6, 7] := rfl
  have h1 : ((1 : ℕ) : ℝ) * (2 * Real.pi) / 7 = ((1 : ℕ) : ℝ) * (Real.pi / 4) := by
    have hg := congrArg (fun l => l.getD 1 0) h
    simpa [linspace_0_2pi, claimed_angles_45, h8, List.getD] using hg
  rw [Nat.cast_one, one_mul, one_mul] at h1
  nlinarith [Real.pi_pos]

/-- Every pose the inner angle loop returns has heading 0 and lies within the
arena bounds. -/
lemma try_angles_some_spec (cosf sinf : α → α) (goal_pose : Pose α)
    (obstacles : List (Obstacle α)) (args : WArgs α) (radius : α) :
    ∀ (angles : List α) (p : Pose α),
      try_angles cosf sinf goal_pose obstacles args radius angles = some p →
      p.theta = 0 ∧ args.LEFT ≤ p.x ∧ p.x ≤ args.RIGHT ∧ args.UP ≤ p.y ∧ p.y ≤ args.DOWN := by
  intro angles
  induction angles with
  | nil => intro p h; simp [try_angles] at h
  | cons a rest ih =>
    intro p h
    simp only [try_angles] at h
    split_ifs at h with hb hc
    · exact ih p h
    · obtain rfl : (⟨goal_pose.x + radius * cosf a, goal_pose.y + radius * sinf a, 0⟩ : Pose α) = p :=
        Option.some.inj h
      exact ⟨rfl, hb.1, hb.2.1, hb.2.2.1, hb.2.2.2⟩
    · exact ih p h

/-- Every pose the radius loop returns has heading 0 and lies within the arena
bounds. -/
lemma try_radii_some_spec (cosf sinf : α → α) (piv : α) (goal_pose : Pose α)
    (obstacles : List (Obstacle α)) (args : WArgs α) :
    ∀ (radii : List α) (p : Pose α),
      try_radii cosf sinf piv goal_pose obstacles args radii = some p →
      p.theta = 0 ∧ args.LEFT ≤ p.x ∧ p.x ≤ args.RIGHT ∧ args.UP ≤ p.y ∧ p.y ≤ args.DOWN := by
  intro radii
  induction radii with
  | nil => intro p h; simp [try_radii] at h
  | cons r rest ih =>
    intro p h
    rw [try_radii] at h
    cases hta : try_angles cosf sinf goal_pose obstacles args r (linspace_0_2pi piv) with
    | some q =>
      rw [hta] at h
      obtain rfl : q = p := Option.some.inj h
      exact try_angles_some_spec cosf sinf goal_pose obstacles args r _ _ hta
    | none =>
      rw [hta] at h
      exact ih p h

/-- Every pose the safe-position search returns has heading 0 and lies within
the arena bounds. -/
lemma find_safe_position_some_spec (cosf sinf : α → α) (piv : α)
    (original_pose goal_pose : Pose α) (obstacles : List (Obstacle α)) (args : WArgs α)
    (p : Pose α)
    (h : find_safe_position cosf sinf piv original_pose goal_pose obstacles args = some p) :
    p.theta = 0 ∧ args.LEFT ≤ p.x ∧ p.x ≤ args.RIGHT ∧ args.UP ≤ p.y ∧ p.y ≤ args.DOWN :=
  try_radii_some_spec cosf sinf piv goal_pose obstacles args radii_list p h

/-- Claim C10: whenever the safe-position search succeeds, the returned pose's
heading component is 0, whatever the original pose or candidate goal carried. -/
theorem claim_C10_safe_search_zero_heading (cosf sinf : α → α) (piv : α)
    (original_pose goal_pose : Pose α) (obstacles : List (Obstacle α)) (args : WArgs α)
    (p : Pose α)
    (h : find_safe_position cosf sinf piv original_pose goal_pose obstacles args = some p) :
    p.theta = 0 :=
  (find_safe_position_some_spec cosf sinf piv original_pose goal_pose obstacles args p h).1

/-- Witness for claim C10: with no obstacles the search returns its very first
probe, whose heading is 0. -/
theorem claim_C10_witness :
    find_safe_position cosQ sinQ piQ ⟨0, 0, 0⟩ ⟨0, 0, 0⟩ [] argsQ =
      some ⟨1 / 20, 0, 0⟩ ∧ (Pose.mk (1 / 20 : ℚ) 0 0).theta = 0 :=
  ⟨by with_unfolding_all decide,
   claim_C10_safe_search_zero_heading cosQ sinQ piQ ⟨0, 0, 0⟩ ⟨0, 0, 0⟩ [] argsQ _
     (by with_unfolding_all decide)⟩

/-- Claim C9: when the directionally updated goal is blocked and the
safe-position search fails, `generate_goal` returns exactly the original input
pose, unchanged in every component (and signals no error — the function is
total). -/
theorem claim_C9_fallback_to_original (cosf sinf : α → α) (piv : α) (goal_pose : Pose α)
    (action : Fin 5) (args : WArgs α) (obstacles : List (Obstacle α))
    (hblocked : check_obstacle_collision
      (apply_action_update args goal_pose (action_id2w action)) obstacles = true)
    (hnone : find_safe_position cosf sinf piv goal_pose
      (apply_action_update args goal_pose (action_id2w action)) obstacles args = none) :
    generate_goal cosf sinf piv goal_pose action args obstacles = goal_pose := by
  simp [generate_goal, hblocked, hnone]

/-- Witness for claim C9: a no-op action inside an obstacle that covers the
whole arena; every probe is blocked, and the agent keeps its pose. -/
theorem claim_C9_witness :
    generate_goal cosQ sinQ piQ ⟨0, 0, 0⟩ 4 argsQ [big_obstacle] = ⟨0, 0, 0⟩ :=
  claim_C9_fallback_to_original cosQ sinQ piQ ⟨0, 0, 0⟩ 4 argsQ [big_obstacle]
    (by with_unfolding_all decide) (by with_unfolding_all decide)

/-- The soft x clamp lands in `[LEFT, RIGHT]` whenever that interval is
nonempty. -/
lemma snap_x_mem (args : WArgs α) (x : α) (hLR : args.LEFT ≤ args.RIGHT) :
    args.LEFT ≤ snap_x args x ∧ snap_x args x ≤ args.RIGHT := by
  unfold snap_x
  split_ifs with h1 h2 <;> constructor <;> linarith

/-- The soft y clamp lands in `[UP, DOWN]` whenever that interval is
nonempty. -/
lemma snap_y_mem (args : WArgs α) (y : α) (hUD : args.UP ≤ args.DOWN) :
    args.UP ≤ snap_y args y ∧ snap_y args y ≤ args.DOWN := by
  unfold snap_y
  split_ifs with h1 h2 <;> constructor <;> linarith

/-- The directional update keeps an in-arena pose inside the arena for every
action, provided the arena is nonempty and the step distance nonnegative. -/
lemma apply_action_update_mem (args : WArgs α) (p : Pose α) (w : WAction)
    (hLR : args.LEFT ≤ args.RIGHT) (hUD : args.UP ≤ args.DOWN) (hstep : 0 ≤ args.step_dist)
    (hxl : args.LEFT ≤ p.x) (hxr : p.x ≤ args.RIGHT)
    (hyu : args.UP ≤ p.y) (hyd : p.y ≤ args.DOWN) :
    args.LEFT ≤ (apply_action_update args p w).x ∧ (apply_action_update args p w).x ≤ args.RIGHT ∧
    args.UP ≤ (apply_action_update args p w).y ∧ (apply_action_update args p w).y ≤ args.DOWN := by
  cases w with
  | left =>
    refine ⟨le_max_right _ _, max_le (by linarith) hLR, ?_, ?_⟩
    · exact (snap_y_mem args p.y hUD).1
    · exact (snap_y_mem args p.y hUD).2
  | right =>
    refine ⟨le_min (by linarith) hLR, min_le_right _ _, ?_, ?_⟩
    · exact (snap_y_mem args p.y hUD).1
    · exact (snap_y_mem args p.y hUD).2
  | up =>
    refine ⟨(snap_x_mem args p.x hLR).1, (snap_x_mem args p.x hLR).2,
      le_max_right _ _, max_le (by linarith) hUD⟩
  | down =>
    refine ⟨(snap_x_mem args p.x hLR).1, (snap_x_mem args p.x hLR).2,
      le_min (by linarith) hUD, min_le_right _ _⟩
  | no_action =>
    exact ⟨(snap_x_mem args p.x hLR).1, (snap_x_mem args p.x hLR).2,
      (snap_y_mem args p.y hUD).1, (snap_y_mem args p.y hUD).2⟩

/-- Claim C2 (amended): provided the arena invariants of the data model hold
(`LEFT ≤ RIGHT`, `UP ≤ DOWN`, a nonnegative step distance) and the input pose
already lies inside the arena, the pose `generate_goal` returns lies inside
the arena rectangle, on every path — directional update, safe-search
recovery, or full fallback to the original pose. -/
theorem claim_C2_generate_goal_in_arena (cosf sinf : α → α) (piv : α) (args : WArgs α)
    (p : Pose α) (action : Fin 5) (obstacles : List (Obstacle α))
    (hLR : args.LEFT ≤ args.RIGHT) (hUD : args.UP ≤ args.DOWN) (hstep : 0 ≤ args.step_dist)
    (hxl : args.LEFT ≤ p.x) (hxr : p.x ≤ args.RIGHT)
    (hyu : args.UP ≤ p.y) (hyd : p.y ≤ args.DOWN) :
    args.LEFT ≤ (generate_goal cosf sinf piv p action args obstacles).x ∧
    (generate_goal cosf sinf piv p action args obstacles).x ≤ args.RIGHT ∧
    args.UP ≤ (generate_goal cosf sinf piv p action args obstacles).y ∧
    (generate_goal cosf sinf piv p action args obstacles).y ≤ args.DOWN := by
  rw [generate_goal]
  by_cases hc : check_obstacle_collision (apply_action_update args p (action_id2w action))
      obstacles
  · simp only [hc, if_true]
    cases hf : find_safe_position cosf sinf piv p
        (apply_action_update args p (action_id2w action)) obstacles args with
    | some q =>
      have hq := find_safe_position_some_spec cosf sinf piv p
        (apply_action_update args p (action_id2w action)) obstacles args q hf
      exact ⟨hq.2.1, hq.2.2.1, hq.2.2.2.1, hq.2.2.2.2⟩
    | none => exact ⟨hxl, hxr, hyu, hyd⟩
  · simp only [hc, if_false]
    exact apply_action_update_mem args p (action_id2w action) hLR hUD hstep hxl hxr hyu hyd

/-- Counterexample to claim C2 as stated: for an input pose that is already
outside the arena (`x = 10`) and an unobstructed `left` action, the returned
pose keeps `x = 9.9`, outside `[LEFT, RIGHT] = [-1.5, 1.5]` — the claim's
universal quantification over every input pose fails. -/
theorem claim_C2_counterexample :
    ¬ (argsQ.LEFT ≤ (generate_goal cosQ sinQ piQ ⟨10, 0, 0⟩ 0 argsQ []).x ∧
       (generate_goal cosQ sinQ piQ ⟨10, 0, 0⟩ 0 argsQ []).x ≤ argsQ.RIGHT ∧
       argsQ.UP ≤ (generate_goal cosQ sinQ piQ ⟨10, 0, 0⟩ 0 argsQ []).y ∧
       (generate_goal cosQ sinQ piQ ⟨10, 0, 0⟩ 0 argsQ []).y ≤ argsQ.DOWN) := by
  with_unfolding_all decide

/-- Witness for claim C2 (amended): a concrete in-arena pose under the `left`
action stays inside the arena. -/
theorem claim_C2_witness :
    argsQ.LEFT ≤ (generate_goal cosQ sinQ piQ ⟨0, 0, 0⟩ 0 argsQ []).x ∧
    (generate_goal cosQ sinQ piQ ⟨0, 0, 0⟩ 0 argsQ []).x ≤ argsQ.RIGHT ∧
    argsQ.UP ≤ (generate_goal cosQ sinQ piQ ⟨0, 0, 0⟩ 0 argsQ []).y ∧
    (generate_goal cosQ sinQ piQ ⟨0, 0, 0⟩ 0 argsQ []).y ≤ argsQ.DOWN :=
  claim_C2_generate_goal_in_arena cosQ sinQ piQ argsQ ⟨0, 0, 0⟩ 0 []
    (by with_unfolding_all decide) (by with_unfolding_all decide)
    (by with_unfolding_all decide) (by with_unfolding_all decide)
    (by with_unfolding_all decide) (by with_unfolding_all decide)
    (by with_unfolding_all decide)

/-- Claim C4: one `step` call.  With an empty termination message the rewards
are exactly the zone/reward engine's output and every agent's terminated flag
is `stepCount > maxEpisodeSteps` (strict, on the already incremented counter);
with a non-empty message every reward is `-5`, every terminated flag is true,
and the message is recorded in the info payload.  In both cases the result is
a well-formed tuple: one observation, one reward and one flag per agent, and
the travelled distance always present in the info payload. -/
theorem claim_C4_step_termination (nbr_sel : List (Pose α) → ℕ → ℕ → List ℕ)
    (args : WArgs α) (st : WState α) (exec : ExecOut α)
    (hp : exec.poses.length = args.n_agents) (hl : st.loaded.length = args.n_agents) :
    (exec.message = "" →
      (stepW nbr_sel args st exec).1.rewards = (get_rewards args exec.poses st.loaded).1 ∧
      (stepW nbr_sel args st exec).1.terminated =
        List.replicate args.n_agents
          (decide (st.episode_steps + 1 > args.max_episode_steps)) ∧
      (stepW nbr_sel args st exec).1.info.message = none) ∧
    (exec.message ≠ "" →
      (stepW nbr_sel args st exec).1.rewards = List.replicate args.n_agents (-5) ∧
      (stepW nbr_sel args st exec).1.terminated = List.replicate args.n_agents true ∧
      (stepW nbr_sel args st exec).1.info.message = some exec.message) ∧
    (stepW nbr_sel args st exec).1.obs.length = args.n_agents ∧
    (stepW nbr_sel args st exec).1.rewards.length = args.n_agents ∧
    (stepW nbr_sel args st exec).1.terminated.length = args.n_agents ∧
    (stepW nbr_sel args st exec).1.info.dist_travelled = exec.dist := by
  by_cases hm : exec.message = ""
  · simp [stepW, hm, get_observations, get_rewards, hp, hl]
  · simp [stepW, hm, get_observations]

/-- Witness for claim C4: the one-agent fixture satisfies the length
hypotheses; the step result carries one observation per agent. -/
theorem claim_C4_witness :
    (stepW nbrQ argsQ stQ execQ).1.obs.length = argsQ.n_agents :=
  (claim_C4_step_termination nbrQ argsQ stQ execQ (by with_unfolding_all decide)
    (by with_unfolding_all decide)).2.2.1

/-- Index 2 of a fold that only appends on the right is index 2 of the
accumulator, whenever the accumulator already has at least 3 entries. -/
lemma foldl_append_getD_two (g : ℕ → List α) (L : List ℕ) :
    ∀ acc : List α, 2 < acc.length →
      (L.foldl (fun a j => a ++ g j) acc).getD 2 0 = acc.getD 2 0 := by
  induction L with
  | nil => intro acc _; rfl
  | cons j rest ih =>
    intro acc hacc
    rw [List.foldl_cons]
    rw [ih (acc ++ g j) (by simp only [List.length_append]; omega)]
    exact List.getD_append acc (g j) 0 2 hacc

/-- Claim C5 (amended): within one `step` call the observations are assembled
from the loaded flags as they stood before the zone/reward update of that same
step, so the loaded component of each agent's returned observation equals its
loaded state from before the update (the code calls `get_observations` before
`get_rewards`). -/
theorem claim_C5_obs_loaded_pre_update (nbr_sel : List (Pose α) → ℕ → ℕ → List ℕ)
    (args : WArgs α) (st : WState α) (exec : ExecOut α) (i : ℕ)
    (hi : i < args.n_agents) :
    (((stepW nbr_sel args st exec).1.obs.getD i []).getD 2 0 : α) =
      loaded_num (st.loaded.getD i false) := by
  have hobs : (stepW nbr_sel args st exec).1.obs =
      get_observations nbr_sel args exec.poses st.loaded := by
    by_cases hm : exec.message = "" <;> simp [stepW, hm]
  rw [hobs, get_observations]
  have hlen : i < ((List.range args.n_agents).map fun k =>
      (nbr_indices nbr_sel args exec.poses k).foldl
        (fun acc j => acc ++ base_obs exec.poses st.loaded j)
        (base_obs exec.poses st.loaded k)).length := by
    simpa using hi
  rw [List.getD_eq_getElem _ _ hlen, List.getElem_map, List.getElem_range]
  rw [foldl_append_getD_two _ _ _ (by simp [base_obs])]
  rfl

/-- Counterexample to claim C5 as stated: an unloaded agent standing in a load
zone takes a normal step; the zone/reward engine flips its loaded flag to
true, but the observation returned by the same `step` call still shows the
loaded component 0 — the observation does not equal the post-update loaded
state, because the code assembles observations before running the engine. -/
theorem claim_C5_counterexample :
    (((stepW nbrQ argsQ stQ execQ).1.obs.getD 0 []).getD 2 0 : ℚ) ≠
      loaded_num ((stepW nbrQ argsQ stQ execQ).2.loaded.getD 0 false) := by
  with_unfolding_all decide

/-- Witness for claim C5 (amended): for the fixture step, the observation's
loaded component equals the pre-step loaded flag. -/
theorem claim_C5_witness :
    (((stepW nbrQ argsQ stQ execQ).1.obs.getD 0 []).getD 2 0 : ℚ) =
      loaded_num (stQ.loaded.getD 0 false) :=
  claim_C5_obs_loaded_pre_update nbrQ argsQ stQ execQ 0 (by with_unfolding_all decide)

/-- The sampling loop never accumulates more than `n` positions. -/
lemma spawn_loop_length_le (sqrtf : α → α) (args : WArgs α) (obstacles : List (Obstacle α))
    (stream : ℕ → α × α) (n : ℕ) :
    ∀ (fuel k : ℕ) (acc : List (Pose α)), acc.length ≤ n →
      (spawn_loop sqrtf args obstacles stream n fuel k acc).length ≤ n := by
  intro fuel
  induction fuel with
  | zero =>
    intro k acc h
    simpa [spawn_loop] using h
  | succ fuel ih =>
    intro k acc h
    simp only [spawn_loop]
    by_cases hlt : acc.length < n
    · rw [if_pos hlt]
      by_cases ha : accept_spawn sqrtf args obstacles acc ⟨(stream k).1, (stream k).2, 0⟩
      · rw [if_pos ha]
        exact ih (k + 1) _ (by simp; omega)
      · rw [if_neg ha]
        exact ih (k + 1) acc h
    · rw [if_neg hlt]
      exact h

/-- The sampling loop reads only the draws of the attempts it runs: two
streams that agree on the consumed window produce the same positions. -/
lemma spawn_loop_congr (sqrtf : α → α) (args : WArgs α) (obstacles : List (Obstacle α))
    (stream stream' : ℕ → α × α) (n : ℕ) :
    ∀ (fuel k : ℕ) (acc : List (Pose α)),
      (∀ j, k ≤ j → j < k + fuel → stream j = stream' j) →
      spawn_loop sqrtf args obstacles stream n fuel k acc =
        spawn_loop sqrtf args obstacles stream' n fuel k acc := by
  intro fuel
  induction fuel with
  | zero => intro k acc _; rfl
  | succ fuel ih =>
    intro k acc hagree
    simp only [spawn_loop]
    by_cases hlt : acc.length < n
    · rw [if_pos hlt, if_pos hlt]
      rw [hagree k le_rfl (by omega)]
      exact ih (k + 1) _ fun j h1 h2 => hagree j (by omega) (by omega)
    · rw [if_neg hlt, if_neg hlt]

/-- With enough fuel, the corner fill appends exactly the missing slots, slot
`acc.length + j` receiving the corner for that index. -/
lemma corner_fill_eq (args : WArgs α) (n : ℕ) :
    ∀ (fuel : ℕ) (acc : List (Pose α)), acc.length ≤ n → n - acc.length ≤ fuel →
      corner_fill args n fuel acc =
        acc ++ (List.range (n - acc.length)).map
          fun j => corner_position args (acc.length + j) := by
  intro fuel
  induction fuel with
  | zero =>
    intro acc _ h2
    have h0 : n - acc.length = 0 := Nat.le_zero.mp h2
    rw [corner_fill, h0]
    simp
  | succ fuel ih =>
    intro acc h1 h2
    rw [corner_fill]
    by_cases hlt : acc.length < n
    · rw [if_pos hlt]
      rw [ih (acc ++ [corner_position args acc.length])
        (by simp only [List.length_append, List.length_cons, List.length_nil]; omega)
        (by simp only [List.length_append, List.length_cons, List.length_nil]; omega)]
      have hr : n - acc.length = (n - (acc.length + 1)) + 1 := by omega
      rw [List.append_assoc]
      congr 1
      rw [hr, List.range_succ_eq_map, List.map_cons, List.map_map]
      simp only [List.length_append, List.length_cons, List.length_nil, Nat.add_zero,
        List.singleton_append]
      congr 1
      apply List.map_congr_left
      intro j _
      simp only [Function.comp_apply]
      congr 1
      omega
    · rw [if_neg hlt]
      have h0 : n - acc.length = 0 := by omega
      rw [h0]
      simp

/-- Claim C7: spawn generation is deterministic-bounded and total.  It always
returns exactly `n` poses; its result depends only on the first
`max_attempts = 1000` random draws; and the slots the sampling phase left
unfilled are filled by the corner positions (cycling left-up, right-up,
left-down, right-down by slot index, each inset 0.3 from the bounds). -/
theorem claim_C7_spawn_termination (sqrtf : α → α) (args : WArgs α)
    (obstacles : List (Obstacle α)) (stream : ℕ → α × α) (n : ℕ) :
    (generate_safe_spawn_positions sqrtf args obstacles stream n).length = n ∧
    (∀ stream' : ℕ → α × α, (∀ k, k < max_attempts → stream k = stream' k) →
      generate_safe_spawn_positions sqrtf args obstacles stream n =
        generate_safe_spawn_positions sqrtf args obstacles stream' n) ∧
    generate_safe_spawn_positions sqrtf args obstacles stream n =
      accepted_spawn sqrtf args obstacles stream n ++
        (List.range (n - (accepted_spawn sqrtf args obstacles stream n).length)).map
          fun j => corner_position args
            ((accepted_spawn sqrtf args obstacles stream n).length + j) := by
  have hlen : (accepted_spawn sqrtf args obstacles stream n).length ≤ n :=
    spawn_loop_length_le sqrtf args obstacles stream n max_attempts 0 [] (by simp)
  refine ⟨?_, ?_, ?_⟩
  · rw [generate_safe_spawn_positions,
      corner_fill_eq args n n _ hlen (by omega)]
    simp only [List.length_append, List.length_map, List.length_range]
    omega
  · intro stream' hag
    rw [generate_safe_spawn_positions, generate_safe_spawn_positions,
      accepted_spawn, accepted_spawn,
      spawn_loop_congr sqrtf args obstacles stream stream' n max_attempts 0 []
        fun j h1 h2 => hag j (by omega)]
  · rw [generate_safe_spawn_positions]
    exact corner_fill_eq args n n _ hlen (by omega)

/-- The pairwise distance is symmetric for every square-root primitive, since
the squared offsets agree. -/
lemma norm2_comm (sqrtf : α → α) (p q : Pose α) : norm2 sqrtf p q = norm2 sqrtf q p := by
  unfold norm2
  congr 1
  ring

/-- Invariant of the sampling loop: provided every draw lies in the inset
sampling box, all accumulated positions are safe and inside the box, and all
pairs are at least `start_dist` apart. -/
lemma spawn_loop_invariant (sqrtf : α → α) (args : WArgs α) (obstacles : List (Obstacle α))
    (stream : ℕ → α × α) (n : ℕ)
    (hbox : ∀ k, args.LEFT + 2 / 10 ≤ (stream k).1 ∧ (stream k).1 ≤ args.RIGHT - 2 / 10 ∧
      args.UP + 2 / 10 ≤ (stream k).2 ∧ (stream k).2 ≤ args.DOWN - 2 / 10) :
    ∀ (fuel k : ℕ) (acc : List (Pose α)),
      (∀ p ∈ acc, is_position_safe p obstacles = true ∧
        args.LEFT + 2 / 10 ≤ p.x ∧ p.x ≤ args.RIGHT - 2 / 10 ∧
        args.UP + 2 / 10 ≤ p.y ∧ p.y ≤ args.DOWN - 2 / 10) →
      acc.Pairwise (fun p q => args.start_dist ≤ norm2 sqrtf p q) →
      (∀ p ∈ spawn_loop sqrtf args obstacles stream n fuel k acc,
        is_position_safe p obstacles = true ∧
        args.LEFT + 2 / 10 ≤ p.x ∧ p.x ≤ args.RIGHT - 2 / 10 ∧
        args.UP + 2 / 10 ≤ p.y ∧ p.y ≤ args.DOWN - 2 / 10) ∧
      (spawn_loop sqrtf args obstacles stream n fuel k acc).Pairwise
        (fun p q => args.start_dist ≤ norm2 sqrtf p q) := by
  intro fuel
  induction fuel with
  | zero =>
    intro k acc h1 h2
    simp only [spawn_loop]
    exact ⟨h1, h2⟩
  | succ fuel ih =>
    intro k acc h1 h2
    simp only [spawn_loop]
    by_cases hlt : acc.length < n
    · rw [if_pos hlt]
      by_cases ha : accept_spawn sqrtf args obstacles acc ⟨(stream k).1, (stream k).2, 0⟩
      · rw [if_pos ha]
        simp only [accept_spawn, Bool.and_eq_true, Bool.not_eq_true', List.any_eq_false,
          decide_eq_true_eq, not_lt] at ha
        apply ih
        · intro p hp
          rcases List.mem_append.mp hp with hpa | hpb
          · exact h1 p hpa
          · obtain rfl : p = ⟨(stream k).1, (stream k).2, 0⟩ := by simpa using hpb
            exact ⟨ha.1, (hbox k).1, (hbox k).2.1, (hbox k).2.2.1, (hbox k).2.2.2⟩
        · rw [List.pairwise_append]
          refine ⟨h2, List.pairwise_singleton _ _, ?_⟩
          intro a hmem b hb
          obtain rfl : b = ⟨(stream k).1, (stream k).2, 0⟩ := by simpa using hb
          rw [norm2_comm]
          exact ha.2 a hmem
      · rw [if_neg ha]
        exact ih (k + 1) acc h1 h2
    · rw [if_neg hlt]
      exact ⟨h1, h2⟩

/-- Claim C8: every position the random-sampling path accepts is unobstructed,
lies in the arena inset by 0.2 from each bound, and is at least `start_dist`
from every previously accepted position; hence every pair of returned
positions is either `start_dist` apart or has a member from the corner
fallback (an index at or beyond the accepted count). -/
theorem claim_C8_spawn_invariants (sqrtf : α → α) (args : WArgs α)
    (obstacles : List (Obstacle α)) (stream : ℕ → α × α) (n : ℕ)
    (hbox : ∀ k, args.LEFT + 2 / 10 ≤ (stream k).1 ∧ (stream k).1 ≤ args.RIGHT - 2 / 10 ∧
      args.UP + 2 / 10 ≤ (stream k).2 ∧ (stream k).2 ≤ args.DOWN - 2 / 10) :
    (∀ p ∈ accepted_spawn sqrtf args obstacles stream n,
      is_position_safe p obstacles = true ∧
      args.LEFT + 2 / 10 ≤ p.x ∧ p.x ≤ args.RIGHT - 2 / 10 ∧
      args.UP + 2 / 10 ≤ p.y ∧ p.y ≤ args.DOWN - 2 / 10) ∧
    (∀ i j : ℕ, i < j →
      j < (generate_safe_spawn_positions sqrtf args obstacles stream n).length →
      args.start_dist ≤ norm2 sqrtf
        ((generate_safe_spawn_positions sqrtf args obstacles stream n).getD i ⟨0, 0, 0⟩)
        ((generate_safe_spawn_positions sqrtf args obstacles stream n).getD j ⟨0, 0, 0⟩) ∨
      (accepted_spawn sqrtf args obstacles stream n).length ≤ j) := by
  have hinv := spawn_loop_invariant sqrtf args obstacles stream n hbox max_attempts 0 []
    (by simp) List.Pairwise.nil
  have hlen : (accepted_spawn sqrtf args obstacles stream n).length ≤ n :=
    spawn_loop_length_le sqrtf args obstacles stream n max_attempts 0 [] (by simp)
  refine ⟨hinv.1, ?_⟩
  intro i j hij hjlen
  by_cases hj : j < (accepted_spawn sqrtf args obstacles stream n).length
  · left
    have hi : i < (accepted_spawn sqrtf args obstacles stream n).length := lt_trans hij hj
    rw [generate_safe_spawn_positions, corner_fill_eq args n n _ hlen (by omega),
      List.getD_append _ _ _ i hi, List.getD_append _ _ _ j hj,
      List.getD_eq_getElem _ _ hi, List.getD_eq_getElem _ _ hj]
    exact List.pairwise_iff_getElem.mp hinv.2 i j hi hj hij
  · right
    omega

/-- Witness for claim C8: a one-agent run whose constant random draw `(0, 0)`
lies inside the inset sampling box of the fixture arena. -/
theorem claim_C8_witness :
    (∀ p ∈ accepted_spawn sqrtQ argsQ [] streamQ 1,
      is_position_safe p [] = true ∧
      argsQ.LEFT + 2 / 10 ≤ p.x ∧ p.x ≤ argsQ.RIGHT - 2 / 10 ∧
      argsQ.UP + 2 / 10 ≤ p.y ∧ p.y ≤ argsQ.DOWN - 2 / 10) ∧
    (∀ i j : ℕ, i < j →
      j < (generate_safe_spawn_positions sqrtQ argsQ [] streamQ 1).length →
      argsQ.start_dist ≤ norm2 sqrtQ
        ((generate_safe_spawn_positions sqrtQ argsQ [] streamQ 1).getD i ⟨0, 0, 0⟩)
        ((generate_safe_spawn_positions sqrtQ argsQ [] streamQ 1).getD j ⟨0, 0, 0⟩) ∨
      (accepted_spawn sqrtQ argsQ [] streamQ 1).length ≤ j) :=
  claim_C8_spawn_invariants sqrtQ argsQ [] streamQ 1 fun k => by
    show argsQ.LEFT + 2 / 10 ≤ (0 : ℚ) ∧ (0 : ℚ) ≤ argsQ.RIGHT - 2 / 10 ∧
      argsQ.UP + 2 / 10 ≤ (0 : ℚ) ∧ (0 : ℚ) ≤ argsQ.DOWN - 2 / 10
    with_unfolding_all decide

end Warehouse
